/-
Verification of the Elantech PS/2 touchpad decoder
(`VoodooPS2Trackpad/VoodooPS2Elan.cpp`).

The C++ code is shallowly embedded: each relevant member function becomes a
pure Lean function over explicit state.  Machine integers are modelled as
`Nat`/`Int`; byte extraction uses the same masks and shifts as the source.
Packets are modelled as functions `Nat → Nat` from byte index to byte value.
-/
import Mathlib

namespace Elan

/-! ## Device identity and capability negotiation -/

/-- `ApplePS2Elan::elantechSetProperties` (hardware-version derivation part).
Returns `some hw_version` on success, `none` when the switch falls through to
`default: return -1` (negotiation aborts). -/
def elantechSetProperties (fw : Nat) : Option Nat :=
  if fw < 0x020030 ∨ fw = 0x020600 then
    some 1
  else
    -- `int ver = (info.fw_version & 0x0f0000) >> 16;`
    let ver := (fw &&& 0x0f0000) >>> 16
    if ver = 2 ∨ ver = 4 then some 2
    else if ver = 5 then some 3
    else if 6 ≤ ver ∧ ver ≤ 15 then some 4
    else none

/-- `ApplePS2Elan::elantech_is_signature_valid`, on the three response bytes. -/
def elantech_is_signature_valid (p0 p1 p2 : Nat) : Bool :=
  -- static const unsigned char rates[] = { 200, 100, 80, 60, 40, 20, 10 };
  if p0 = 0 then false
  else if p1 = 0 then true
  else if (p0 &&& 0x0f) ≥ 0x06 ∧ (p1 &&& 0xaf) = 0x0f ∧ p2 < 40 then true
  else if p2 ∈ [200, 100, 80, 60, 40, 20, 10] then false
  else true

/-- `ApplePS2Elan::elantechDetect`, magic-knock comparison:
`param[0] != 0x3c || param[1] != 0x03 || (param[2] != 0xc8 && param[2] != 0x00)`
aborts; otherwise detection proceeds to the firmware-version query. -/
def elantechKnockAccepted (p0 p1 p2 : Nat) : Bool :=
  ¬(p0 ≠ 0x3c ∨ p1 ≠ 0x03 ∨ (p2 ≠ 0xc8 ∧ p2 ≠ 0x00))

/-! ## Coordinate rescaler -/

/-- The four coordinate bounds of `elantech_device_info` touched by
`elantechRescale`. -/
structure Bounds where
  x_min : Nat
  x_max : Nat
  y_min : Nat
  y_max : Nat
  deriving Repr, DecidableEq

/-- `ApplePS2Elan::elantechRescale`: widens the bounds to include `(x,y)`.
The property/notification side effects do not touch the bounds and are not
modelled. -/
def elantechRescale (b : Bounds) (x y : Nat) : Bounds :=
  let b := if x > b.x_max then { b with x_max := x } else b
  let b := if x < b.x_min then { b with x_min := x } else b
  let b := if y > b.y_max then { b with y_max := y } else b
  let b := if y < b.y_min then { b with y_min := y } else b
  b

/-- A sequence of `rescale(x, y)` calls, folded left to right. -/
def rescaleRun (b : Bounds) (calls : List (Nat × Nat)) : Bounds :=
  calls.foldl (fun a p => elantechRescale a p.1 p.2) b

/-! ### C3: hardware-version derivation -/

/-- C3.  For every 24-bit firmware version value, hardware-version derivation
yields: hw_version 1 when the value is `< 0x020030` or equals `0x020600`;
otherwise, from the 4-bit IC-body field (bits 16–19): 2 or 4 gives hw_version
2, 5 gives hw_version 3, 6 through 15 gives hw_version 4, and any other body
value makes derivation fail (negotiation aborts). -/
theorem hw_version_derivation (fw : Nat) (hfw : fw < 2 ^ 24) :
    ((fw < 0x020030 ∨ fw = 0x020600) → elantechSetProperties fw = some 1) ∧
    (¬(fw < 0x020030 ∨ fw = 0x020600) →
      (((fw &&& 0x0f0000) >>> 16 = 2 ∨ (fw &&& 0x0f0000) >>> 16 = 4) →
        elantechSetProperties fw = some 2) ∧
      ((fw &&& 0x0f0000) >>> 16 = 5 → elantechSetProperties fw = some 3) ∧
      ((6 ≤ (fw &&& 0x0f0000) >>> 16 ∧ (fw &&& 0x0f0000) >>> 16 ≤ 15) →
        elantechSetProperties fw = some 4) ∧
      (¬((fw &&& 0x0f0000) >>> 16 = 2 ∨ (fw &&& 0x0f0000) >>> 16 = 4) →
        (fw &&& 0x0f0000) >>> 16 ≠ 5 →
        ¬(6 ≤ (fw &&& 0x0f0000) >>> 16 ∧ (fw &&& 0x0f0000) >>> 16 ≤ 15) →
        elantechSetProperties fw = none)) := by
  refine ⟨fun h => by simp only [elantechSetProperties, if_pos h], fun h => ?_⟩
  refine ⟨fun hv => ?_, fun hv => ?_, fun hv => ?_, fun h2 h5 h615 => ?_⟩
  · simp only [elantechSetProperties, if_neg h, if_pos hv]
  · have h24 : ¬(5 = 2 ∨ 5 = 4) := by decide
    simp [elantechSetProperties, if_neg h, hv, h24]
  · have h24 : ¬((fw &&& 0x0f0000) >>> 16 = 2 ∨ (fw &&& 0x0f0000) >>> 16 = 4) := by omega
    have h5 : (fw &&& 0x0f0000) >>> 16 ≠ 5 := by omega
    simp only [elantechSetProperties, if_neg h, if_neg h24, if_neg h5, if_pos hv]
  · simp only [elantechSetProperties, if_neg h, if_neg h2, if_neg h5, if_neg h615]

/-- Witness for `hw_version_derivation` at `fw = 0x050000` (IC body 5 → v3). -/
theorem hw_version_derivation_witness :
    (0x050000 : Nat) < 2 ^ 24 ∧ elantechSetProperties 0x050000 = some 3 := by
  refine ⟨by norm_num, ?_⟩
  have h := (hw_version_derivation 0x050000 (by norm_num)).2 (by decide)
  exact h.2.1 (by decide)

/-! ### C5: firmware-signature validation boundary -/

/-- C5.  The firmware-signature validator satisfies, for every 3-byte
response: byte0 = 0 implies invalid; byte0 nonzero and byte1 = 0 implies
valid; the magic-knock response `{0x3c, 0x03, 0xc8}` passes the knock
comparison (and detection proceeds to firmware-version validation); and any
response with byte1 ≠ 0 and byte2 = 100 (a known PS/2 sample rate) is
rejected as non-Elantech. -/
theorem signature_validation_boundary (p0 p1 p2 : Nat) :
    (p0 = 0 → elantech_is_signature_valid p0 p1 p2 = false) ∧
    (p0 ≠ 0 → p1 = 0 → elantech_is_signature_valid p0 p1 p2 = true) ∧
    elantechKnockAccepted 0x3c 0x03 0xc8 = true ∧
    (p1 ≠ 0 → p2 = 100 → elantech_is_signature_valid p0 p1 p2 = false) := by
  refine ⟨fun h0 => ?_, fun h0 h1 => ?_, by decide, fun h1 h2 => ?_⟩
  · simp only [elantech_is_signature_valid, if_pos h0]
  · simp only [elantech_is_signature_valid, if_neg h0, if_pos h1]
  · subst h2
    by_cases h0 : p0 = 0
    · simp only [elantech_is_signature_valid, if_pos h0]
    · have hby : ¬((p0 &&& 0x0f) ≥ 0x06 ∧ (p1 &&& 0xaf) = 0x0f ∧ (100 : Nat) < 40) := by
        rintro ⟨-, -, h⟩; omega
      have hmem : (100 : Nat) ∈ [200, 100, 80, 60, 40, 20, 10] := by decide
      simp only [elantech_is_signature_valid, if_neg h0, if_neg h1, if_neg hby, if_pos hmem]

/-- Witness for `signature_validation_boundary`: all four boundary cases at
concrete bytes. -/
theorem signature_validation_boundary_witness :
    elantech_is_signature_valid 0 1 2 = false ∧
    elantech_is_signature_valid 0x3c 0 0xc8 = true ∧
    elantechKnockAccepted 0x3c 0x03 0xc8 = true ∧
    elantech_is_signature_valid 0x3c 0x03 100 = false := by
  refine ⟨(signature_validation_boundary 0 1 2).1 rfl,
    (signature_validation_boundary 0x3c 0 0xc8).2.1 (by decide) rfl,
    (signature_validation_boundary 1 1 1).2.2.1,
    (signature_validation_boundary 0x3c 0x03 100).2.2.2 (by decide) rfl⟩

/-! ### C4: rescale bounds monotonicity -/

/-- One `elantechRescale` call never shrinks a bound. -/
theorem rescale_step_widens (b : Bounds) (x y : Nat) :
    b.x_max ≤ (elantechRescale b x y).x_max ∧ (elantechRescale b x y).x_min ≤ b.x_min ∧
    b.y_max ≤ (elantechRescale b x y).y_max ∧ (elantechRescale b x y).y_min ≤ b.y_min := by
  simp only [elantechRescale]
  split <;> split <;> split <;> split <;> simp_all <;> omega

/-- After one `elantechRescale` call, the supplied point lies inside the
updated bounds. -/
theorem rescale_step_within (b : Bounds) (x y : Nat) :
    (elantechRescale b x y).x_min ≤ x ∧ x ≤ (elantechRescale b x y).x_max ∧
    (elantechRescale b x y).y_min ≤ y ∧ y ≤ (elantechRescale b x y).y_max := by
  simp only [elantechRescale]
  split <;> split <;> split <;> split <;> simp_all <;> omega

/-- A whole run of `elantechRescale` calls never shrinks a bound. -/
theorem rescaleRun_widens (b : Bounds) (calls : List (Nat × Nat)) :
    b.x_max ≤ (rescaleRun b calls).x_max ∧ (rescaleRun b calls).x_min ≤ b.x_min ∧
    b.y_max ≤ (rescaleRun b calls).y_max ∧ (rescaleRun b calls).y_min ≤ b.y_min := by
  induction calls generalizing b with
  | nil => simp [rescaleRun]
  | cons c cs ih =>
    have h1 := rescale_step_widens b c.1 c.2
    have h2 := ih (elantechRescale b c.1 c.2)
    simp only [rescaleRun, List.foldl_cons] at h2 ⊢
    exact ⟨h1.1.trans h2.1, h2.2.1.trans h1.2.1, h1.2.2.1.trans h2.2.2.1,
      h2.2.2.2.trans h1.2.2.2⟩

/-- C4.  For any sequence of `rescale(x,y)` calls, `x_max`/`y_max` are
non-decreasing and `x_min`/`y_min` are non-increasing across the sequence
(every prefix-to-suffix step only widens), and after every call the supplied
`x` lies in `[x_min, x_max]` and the supplied `y` lies in `[y_min, y_max]`;
no bound reverts within the run. -/
theorem rescale_bounds_monotone (b : Bounds) (calls : List (Nat × Nat)) :
    (∀ pre rest, calls = pre ++ rest →
      (rescaleRun b pre).x_max ≤ (rescaleRun b calls).x_max ∧
      (rescaleRun b calls).x_min ≤ (rescaleRun b pre).x_min ∧
      (rescaleRun b pre).y_max ≤ (rescaleRun b calls).y_max ∧
      (rescaleRun b calls).y_min ≤ (rescaleRun b pre).y_min) ∧
    (∀ pre x y rest, calls = pre ++ (x, y) :: rest →
      (rescaleRun b (pre ++ [(x, y)])).x_min ≤ x ∧
      x ≤ (rescaleRun b (pre ++ [(x, y)])).x_max ∧
      (rescaleRun b (pre ++ [(x, y)])).y_min ≤ y ∧
      y ≤ (rescaleRun b (pre ++ [(x, y)])).y_max) := by
  constructor
  · intro pre rest hsplit
    subst hsplit
    have : rescaleRun b (pre ++ rest) = rescaleRun (rescaleRun b pre) rest := by
      simp [rescaleRun, List.foldl_append]
    rw [this]
    exact rescaleRun_widens (rescaleRun b pre) rest
  · intro pre x y rest hsplit
    have : rescaleRun b (pre ++ [(x, y)]) = elantechRescale (rescaleRun b pre) x y := by
      simp [rescaleRun, List.foldl_append]
    rw [this]
    exact rescale_step_within (rescaleRun b pre) x y

/-- Witness for `rescale_bounds_monotone` on a concrete two-call run. -/
theorem rescale_bounds_monotone_witness :
    ([((5 : Nat), (7 : Nat)), (200, 1)] = [((5 : Nat), (7 : Nat))] ++ [(200, 1)]) ∧
    (rescaleRun ⟨10, 100, 10, 100⟩ [(5, 7)]).x_max ≤
      (rescaleRun ⟨10, 100, 10, 100⟩ [(5, 7), (200, 1)]).x_max := by
  refine ⟨rfl, ?_⟩
  exact ((rescale_bounds_monotone ⟨10, 100, 10, 100⟩ [(5, 7), (200, 1)]).1
    [(5, 7)] [(200, 1)] rfl).1

/-! ## Register access protocol -/

/-- A single PS/2 exchange issued to the device: either a sliced command
(`ps2_sliced_command`) or a plain/custom command byte
(`ps2_command` / `elantech_ps2_command`). -/
inductive PS2Op where
  | sliced (c : Nat)
  | cmd (c : Nat)
  deriving Repr, DecidableEq

/-- `ETP_PS2_CUSTOM_COMMAND` (value from the Elantech protocol headers). -/
def ETP_PS2_CUSTOM_COMMAND : Nat := 0xf8
/-- `ETP_REGISTER_READ`. -/
def ETP_REGISTER_READ : Nat := 0x10
/-- `ETP_REGISTER_WRITE`. -/
def ETP_REGISTER_WRITE : Nat := 0x11
/-- `ETP_REGISTER_READWRITE`. -/
def ETP_REGISTER_READWRITE : Nat := 0x00
/-- `kDP_GetMouseInformation`. -/
def kDP_GetMouseInformation : Nat := 0xe9
/-- `kDP_SetMouseScaling1To1`. -/
def kDP_SetMouseScaling1To1 : Nat := 0xe6

/-- Run a short-circuited `cmd1 || cmd2 || ...` chain: each op is issued in
turn; `ok i` tells whether the i-th issued exchange succeeds; on the first
failure no further op is issued and the chain reports failure (`-1`). -/
def runCmds (ok : Nat → Bool) : List PS2Op → Nat → Int × List PS2Op
  | [], _ => (0, [])
  | c :: cs, i =>
    if ok i then
      let r := runCmds ok cs (i + 1)
      (r.1, c :: r.2)
    else
      (-1, [c])

/-- `ApplePS2Elan::elantechReadReg`: result code and the list of PS/2
exchanges issued.  The byte read back (`param[0]`/`param[1]`) comes from the
device and is not modelled. -/
def elantechReadReg (hw reg : Nat) (ok : Nat → Bool) : Int × List PS2Op :=
  if reg < 0x07 ∨ reg > 0x26 then (-1, [])
  else if reg > 0x11 ∧ reg < 0x20 then (-1, [])
  else
    match hw with
    | 1 => runCmds ok [.sliced ETP_REGISTER_READ, .sliced reg,
        .cmd kDP_GetMouseInformation] 0
    | 2 => runCmds ok [.cmd ETP_PS2_CUSTOM_COMMAND, .cmd ETP_REGISTER_READ,
        .cmd ETP_PS2_CUSTOM_COMMAND, .cmd reg, .cmd kDP_GetMouseInformation] 0
    | 3 => runCmds ok [.cmd ETP_PS2_CUSTOM_COMMAND, .cmd ETP_REGISTER_READWRITE,
        .cmd ETP_PS2_CUSTOM_COMMAND, .cmd reg, .cmd kDP_GetMouseInformation] 0
    | 4 => runCmds ok [.cmd ETP_PS2_CUSTOM_COMMAND, .cmd ETP_REGISTER_READWRITE,
        .cmd ETP_PS2_CUSTOM_COMMAND, .cmd reg, .cmd kDP_GetMouseInformation] 0
    | _ => (0, [])

/-- `ApplePS2Elan::elantechWriteReg`: result code and the list of PS/2
exchanges issued. -/
def elantechWriteReg (hw reg val : Nat) (ok : Nat → Bool) : Int × List PS2Op :=
  if reg < 0x07 ∨ reg > 0x26 then (-1, [])
  else if reg > 0x11 ∧ reg < 0x20 then (-1, [])
  else
    match hw with
    | 1 => runCmds ok [.sliced ETP_REGISTER_WRITE, .sliced reg, .sliced val,
        .cmd kDP_SetMouseScaling1To1] 0
    | 2 => runCmds ok [.cmd ETP_PS2_CUSTOM_COMMAND, .cmd ETP_REGISTER_WRITE,
        .cmd ETP_PS2_CUSTOM_COMMAND, .cmd reg, .cmd ETP_PS2_CUSTOM_COMMAND,
        .cmd val, .cmd kDP_SetMouseScaling1To1] 0
    | 3 => runCmds ok [.cmd ETP_PS2_CUSTOM_COMMAND, .cmd ETP_REGISTER_READWRITE,
        .cmd ETP_PS2_CUSTOM_COMMAND, .cmd reg, .cmd ETP_PS2_CUSTOM_COMMAND,
        .cmd val, .cmd kDP_SetMouseScaling1To1] 0
    | 4 => runCmds ok [.cmd ETP_PS2_CUSTOM_COMMAND, .cmd ETP_REGISTER_READWRITE,
        .cmd ETP_PS2_CUSTOM_COMMAND, .cmd reg, .cmd ETP_PS2_CUSTOM_COMMAND,
        .cmd ETP_REGISTER_READWRITE, .cmd ETP_PS2_CUSTOM_COMMAND, .cmd val,
        .cmd kDP_SetMouseScaling1To1] 0
    | _ => (0, [])

/-! ### C8: register address validation -/

/-- C8.  For every hardware version (1–4) and every register address outside
`0x07–0x26`, or inside the excluded sub-range `0x12–0x1F`, both
`elantechReadReg` and `elantechWriteReg` return failure without issuing any
PS/2 exchange; for addresses in the valid range, neither rejects the address
(the transport chain is entered and at least one exchange is issued). -/
theorem register_address_validation (hw reg val : Nat) (ok : Nat → Bool)
    (hhw : hw = 1 ∨ hw = 2 ∨ hw = 3 ∨ hw = 4) :
    ((reg < 0x07 ∨ 0x26 < reg ∨ (0x11 < reg ∧ reg < 0x20)) →
      elantechReadReg hw reg ok = (-1, []) ∧
      elantechWriteReg hw reg val ok = (-1, [])) ∧
    ((0x07 ≤ reg ∧ reg ≤ 0x26 ∧ ¬(0x11 < reg ∧ reg < 0x20)) →
      (elantechReadReg hw reg ok).2 ≠ [] ∧
      (elantechWriteReg hw reg val ok).2 ≠ []) := by
  constructor
  · intro hbad
    by_cases hout : reg < 0x07 ∨ reg > 0x26
    · constructor <;> simp [elantechReadReg, elantechWriteReg, if_pos hout]
    · have hexc : reg > 0x11 ∧ reg < 0x20 := by omega
      constructor <;>
        simp [elantechReadReg, elantechWriteReg, if_neg hout, if_pos hexc]
  · intro hgood
    have hout : ¬(reg < 0x07 ∨ reg > 0x26) := by omega
    have hexc : ¬(reg > 0x11 ∧ reg < 0x20) := by omega
    rcases hhw with h | h | h | h <;> subst h <;>
      constructor <;>
      simp only [elantechReadReg, elantechWriteReg, if_neg hout, if_neg hexc] <;>
      simp only [runCmds] <;>
      split <;> simp

/-- Witness for `register_address_validation` at `hw = 3`, the rejected
address `0x15` and the accepted address `0x10`. -/
theorem register_address_validation_witness :
    ((3 : Nat) = 1 ∨ (3 : Nat) = 2 ∨ (3 : Nat) = 3 ∨ (3 : Nat) = 4) ∧
    elantechReadReg 3 0x15 (fun _ => true) = (-1, []) ∧
    (elantechReadReg 3 0x10 (fun _ => true)).2 ≠ [] := by
  refine ⟨by decide, ?_, ?_⟩
  · exact ((register_address_validation 3 0x15 0 (fun _ => true)
      (by decide)).1 (by decide)).1
  · exact ((register_address_validation 3 0x10 0 (fun _ => true)
      (by decide)).2 (by decide)).1

/-! ## Parity table and V1 packet check -/

/-- The table construction of `elantechSetupPS2`:
`etd.parity[0] = 1; for (i = 1; i < 256; i++) parity[i] = parity[i & (i-1)] ^ 1;`
expressed as a recursion on the same index chain.  `n &&& (n - 1)` clears the
lowest set bit, so a fuel of `n` always suffices. -/
def parityFuel : Nat → Nat → Nat
  | _, 0 => 1
  | 0, _ + 1 => 0
  | f + 1, n + 1 => parityFuel f ((n + 1) &&& n) ^^^ 1

/-- `etd.parity[n]` as written by the setup loop. -/
def parity (n : Nat) : Nat := parityFuel n n

/-- Number of set bits among the 8 bits of a byte. -/
def setBitCount8 (n : Nat) : Nat := (List.range 8).countP (fun b => n.testBit b)

/-- The odd-parity check bit of a byte: `1` when the byte has an even number
of set bits, `0` when odd (the complement of the byte's bit-parity). -/
def oddParityBit (n : Nat) : Nat := if setBitCount8 n % 2 = 0 then 1 else 0

/-- `ApplePS2Elan::elantechPacketCheckV1`, parity-bit extraction from byte 0
(placement depends on the firmware being pre/post `0x020000`). -/
def v1ParityBits (fw : Nat) (packet : Nat → Nat) : Nat × Nat × Nat :=
  if fw < 0x020000 then
    (((packet 0 &&& 0x20) >>> 5), ((packet 0 &&& 0x10) >>> 4), ((packet 0 &&& 0x04) >>> 2))
  else
    (((packet 0 &&& 0x10) >>> 4), ((packet 0 &&& 0x20) >>> 5), ((packet 0 &&& 0x04) >>> 2))

/-- `ApplePS2Elan::elantechPacketCheckV1`: the three data bytes' table
entries must match the three parity bits of byte 0. -/
def elantechPacketCheckV1 (fw : Nat) (packet : Nat → Nat) : Bool :=
  let p := v1ParityBits fw packet
  parity (packet 1) = p.1 ∧ parity (packet 2) = p.2.1 ∧ parity (packet 3) = p.2.2

set_option maxRecDepth 8192 in
/-- The parity table agrees with the odd-parity check bit on every byte. -/
theorem parity_eq_oddParityBit : ∀ i < 256, parity i = oddParityBit i := by decide

/-! ### C9: parity table contents -/

/-- C9.  After the parity table is initialized at setup, for every index `i`
in `0..255`, `parity[i]` equals 1 iff `i` has an even number of set bits and
0 iff odd (the odd-parity check bit, the complement of the index's
bit-parity); and this is exactly the value compared against the three parity
bits during V1 packet validation. -/
theorem parity_table_contents :
    (∀ i < 256, parity i = oddParityBit i) ∧
    (∀ fw packet, packet 1 < 256 → packet 2 < 256 → packet 3 < 256 →
      (elantechPacketCheckV1 fw packet = true ↔
        (oddParityBit (packet 1) = (v1ParityBits fw packet).1 ∧
         oddParityBit (packet 2) = (v1ParityBits fw packet).2.1 ∧
         oddParityBit (packet 3) = (v1ParityBits fw packet).2.2))) := by
  refine ⟨parity_eq_oddParityBit, fun fw packet h1 h2 h3 => ?_⟩
  simp only [elantechPacketCheckV1, parity_eq_oddParityBit _ h1,
    parity_eq_oddParityBit _ h2, parity_eq_oddParityBit _ h3, decide_eq_true_eq]

/-- Witness for `parity_table_contents` at index 7 (three set bits → 0) and a
concrete valid V1 packet. -/
theorem parity_table_contents_witness :
    (7 : Nat) < 256 ∧ parity 7 = oddParityBit 7 ∧
    (elantechPacketCheckV1 0 (fun k => if k = 0 then 0x34 else 0) = true ↔
      (oddParityBit 0 = (v1ParityBits 0 (fun k => if k = 0 then 0x34 else 0)).1 ∧
       oddParityBit 0 = (v1ParityBits 0 (fun k => if k = 0 then 0x34 else 0)).2.1 ∧
       oddParityBit 0 = (v1ParityBits 0 (fun k => if k = 0 then 0x34 else 0)).2.2)) := by
  refine ⟨by decide, parity_table_contents.1 7 (by decide), ?_⟩
  exact parity_table_contents.2 0 (fun k => if k = 0 then 0x34 else 0)
    (by decide) (by decide) (by decide)

/-! ## Packet reassembler -/

/-- `ApplePS2Elan::interruptOccurred` on one byte.  The head slot of the ring
buffer is modelled from the spec as the list of bytes accumulated since the
last packet boundary (`_packetByteCount` is its length): the byte is appended
(`packet[_packetByteCount++] = data`); when the count reaches the negotiated
packet length the head pointer advances — the accumulated bytes become a
complete packet — and `kPS2IR_packetReady` is returned, else
`kPS2IR_packetBuffering`.  (The ring-buffer class itself lives in a header
that is not under `src/`.) -/
def interruptOccurred (P : Nat) (cur : List Nat) (b : Nat) :
    List Nat × Option (List Nat) :=
  let cur' := cur ++ [b]
  if cur'.length = P then ([], some cur') else (cur', none)

/-- Deliver a byte stream one byte at a time, collecting the completed
packets (one per `kPS2IR_packetReady` result). -/
def processStream (P : Nat) : List Nat → List Nat → List Nat × List (List Nat)
  | cur, [] => (cur, [])
  | cur, b :: bs =>
    match interruptOccurred P cur b with
    | (c, some pkt) => ((processStream P c bs).1, pkt :: (processStream P c bs).2)
    | (c, none) => processStream P c bs

/-- Invariant form of the reassembly property, for any partially filled head
slot. -/
theorem processStream_spec (P : Nat) (hP : 0 < P) :
    ∀ (bs cur : List Nat), cur.length < P →
      (processStream P cur bs).2.length = (cur.length + bs.length) / P ∧
      (processStream P cur bs).2.flatten ++ (processStream P cur bs).1 = cur ++ bs ∧
      (∀ p ∈ (processStream P cur bs).2, p.length = P) ∧
      (processStream P cur bs).1.length = (cur.length + bs.length) % P := by
  intro bs
  induction bs with
  | nil =>
    intro cur hcur
    simp [processStream, Nat.div_eq_of_lt hcur, Nat.mod_eq_of_lt hcur]
  | cons b bs ih =>
    intro cur hcur
    by_cases hfull : cur.length + 1 = P
    · have hio : interruptOccurred P cur b = ([], some (cur ++ [b])) := by
        simp [interruptOccurred, hfull]
      obtain ⟨e1, e2, e3, e4⟩ := ih [] (by simpa using hP)
      simp only [processStream, hio, List.length_cons, List.length_nil,
        Nat.zero_add] at e1 e2 e3 e4 ⊢
      refine ⟨?_, ?_, ?_, ?_⟩
      · rw [e1]
        have h2 : cur.length + (bs.length + 1) = bs.length + P := by omega
        rw [h2, Nat.add_div_right _ hP]
      · simp only [List.flatten_cons, List.append_assoc, e2]
        simp
      · intro p hp
        rcases List.mem_cons.mp hp with h | h
        · subst h
          simp only [List.length_append, List.length_singleton]
          omega
        · exact e3 p h
      · rw [e4]
        have h2 : cur.length + (bs.length + 1) = bs.length + P := by omega
        rw [h2, Nat.add_mod_right]
    · have hio : interruptOccurred P cur b = (cur ++ [b], none) := by
        simp [interruptOccurred, hfull]
      have hlt : (cur ++ [b]).length < P := by
        simp only [List.length_append, List.length_singleton]
        omega
      obtain ⟨e1, e2, e3, e4⟩ := ih (cur ++ [b]) hlt
      simp only [processStream, hio, List.length_cons] at e1 e2 e3 e4 ⊢
      refine ⟨?_, ?_, e3, ?_⟩
      · rw [e1]
        congr 1
        simp only [List.length_append, List.length_singleton]
        omega
      · rw [e2]
        simp
      · rw [e4]
        congr 1
        simp only [List.length_append, List.length_singleton]
        omega

/-! ### C2: reassembly correctness -/

/-- C2.  For any input byte stream of length `L` delivered one byte at a time
with negotiated packet length `P > 0`, starting from an empty buffer, exactly
`⌊L/P⌋` `PacketReady` results are reported (one per collected packet; all
other calls report `Buffering`), each completed packet has exactly `P` bytes,
and the packets concatenated with the leftover buffered bytes reproduce the
input stream in arrival order — no byte lost or duplicated. -/
theorem reassembly_correctness (P : Nat) (hP : 0 < P) (bs : List Nat) :
    (processStream P [] bs).2.length = bs.length / P ∧
    (processStream P [] bs).2.flatten ++ (processStream P [] bs).1 = bs ∧
    (∀ p ∈ (processStream P [] bs).2, p.length = P) ∧
    (processStream P [] bs).1.length = bs.length % P := by
  have h := processStream_spec P hP bs [] (by simpa using hP)
  simpa using h

/-- Witness for `reassembly_correctness`: a 10-byte stream with `P = 4`
yields 2 packets and 2 leftover bytes. -/
theorem reassembly_correctness_witness :
    (0 : Nat) < 4 ∧
    (processStream 4 [] [1, 2, 3, 4, 5, 6, 7, 8, 9, 10]).2.length =
      ([1, 2, 3, 4, 5, 6, 7, 8, 9, 10] : List Nat).length / 4 ∧
    (processStream 4 [] [1, 2, 3, 4, 5, 6, 7, 8, 9, 10]).2.flatten ++
      (processStream 4 [] [1, 2, 3, 4, 5, 6, 7, 8, 9, 10]).1 =
      [1, 2, 3, 4, 5, 6, 7, 8, 9, 10] := by
  refine ⟨by decide, ?_, ?_⟩
  · exact (reassembly_correctness 4 (by decide) [1, 2, 3, 4, 5, 6, 7, 8, 9, 10]).1
  · exact (reassembly_correctness 4 (by decide) [1, 2, 3, 4, 5, 6, 7, 8, 9, 10]).2.1

/-! ## Virtual finger tracker -/

/-- A touch coordinate pair. -/
structure Coord where
  x : Int
  y : Int
  deriving Repr, DecidableEq

/-- One `elan_virtual_finger_state` slot. -/
structure FingerState where
  touch : Bool
  now : Coord
  prev : Coord
  pressure : Nat
  width : Nat
  button : Nat
  deriving Repr, DecidableEq

/-- `ETP_MAX_FINGERS`: the hardware maximum of 5 slots (spec §3,
`VirtualFinger[N]`, N = 5; the numeric constant lives in the protocol
header). -/
def ETP_MAX_FINGERS : Nat := 5

/-- A cleared virtual-finger slot. -/
def blankFinger : FingerState :=
  { touch := false, now := ⟨0, 0⟩, prev := ⟨0, 0⟩, pressure := 0, width := 0, button := 0 }

/-- Update one slot of a finger map (`virtualFinger[i] = v`). -/
def setFinger (f : Nat → FingerState) (i : Nat) (v : FingerState) : Nat → FingerState :=
  fun j => if j = i then v else f j

/-- The tracker state read and written by the V4 packet handlers. -/
structure V4State where
  fingers : Nat → FingerState
  heldFingers : Nat
  headPacketsCount : Nat
  leftButton : Nat
  rightButton : Nat

/-- A frame as assembled by `sendTouchData`: one entry per `touch = true`
slot in slot order — `(secondaryId, currentCoordinates, previousCoordinates)`.
The button/pressure/finger-type policy fields do not affect which contacts
appear in the frame and are not modelled. -/
def buildFrame (f : Nat → FingerState) : List (Nat × Coord × Coord) :=
  (List.range ETP_MAX_FINGERS).filterMap fun i =>
    if (f i).touch then some (i, (f i).now, (f i).prev) else none

/-- `IS_ETD0180()`: `info.fw_version == 0x381f17`. -/
def isETD0180 (fw : Nat) : Bool := fw = 0x381f17

/-- `ApplePS2Elan::processPacketStatusV4`.  Returns the new tracker state and
the list of frames pushed (one per `sendTouchData()` call; the emission
itself is modelled by `sendTouchData` below). -/
def processPacketStatusV4 (fw : Nat) (packet : Nat → Nat) (s : V4State) :
    V4State × List (List (Nat × Coord × Coord)) :=
  let s := { s with leftButton := packet 0 &&& 0x1, rightButton := packet 0 &&& 0x2 }
  let fingers := packet 1 &&& 0x1f
  if isETD0180 fw ∧ fingers = 0 then
    -- ETD0180 STATUS with zero fingers: clear touch state and send
    let f := fun i => if i < ETP_MAX_FINGERS then { s.fingers i with touch := false }
                      else s.fingers i
    let s := { s with fingers := f }
    (s, [buildFrame s.fingers])
  else
    let f := fun i => if i < ETP_MAX_FINGERS then { s.fingers i with touch := fingers.testBit i }
                      else s.fingers i
    let count := (List.range ETP_MAX_FINGERS).countP fun i => fingers.testBit i
    let s := { s with fingers := f, heldFingers := count, headPacketsCount := 0 }
    if count = 0 then (s, [buildFrame s.fingers]) else (s, [])

/-- `ApplePS2Elan::processPacketHeadV4`. -/
def processPacketHeadV4 (fw : Nat) (yMax : Int) (packet : Nat → Nat) (s : V4State) :
    V4State × List (List (Nat × Coord × Coord)) :=
  let idStd : Int := (((packet 3 &&& 0xe0) >>> 5 : Nat) : Int) - 1
  -- ETD0180 forces an out-of-range id to slot 0; standard V4 keeps it
  let id : Int := if isETD0180 fw then
      (if idStd < 0 ∨ idStd ≥ (ETP_MAX_FINGERS : Int) then 0 else idStd)
    else idStd
  let s := { s with leftButton := packet 0 &&& 0x1, rightButton := packet 0 &&& 0x2,
                    headPacketsCount := s.headPacketsCount + 1 }
  if id < 0 ∨ id ≥ (ETP_MAX_FINGERS : Int) then (s, [])
  else
    let i := id.toNat
    let x : Int := (((packet 1 &&& 0x0f) <<< 8) ||| packet 2 : Nat)
    let y : Int := yMax - ((((packet 4 &&& 0x0f) <<< 8) ||| packet 5 : Nat) : Int)
    let pres := (packet 1 &&& 0xf0) ||| ((packet 4 &&& 0xf0) >>> 4)
    let traces := (packet 0 &&& 0xf0) >>> 4
    let fi := s.fingers i
    let fi := { fi with button := packet 0 &&& 0x3, prev := fi.now, pressure := pres,
                        width := traces, touch := true, now := ⟨x, y⟩ }
    let s := { s with fingers := setFinger s.fingers i fi }
    if isETD0180 fw then
      -- ETD0180: HEAD packets send immediately
      (s, [buildFrame s.fingers])
    else if s.headPacketsCount = s.heldFingers then
      ({ s with headPacketsCount := 0 }, [buildFrame s.fingers])
    else (s, [])

/-- `(signed char)` cast of a byte. -/
def signedChar (b : Nat) : Int :=
  if b % 256 < 128 then (b % 256 : Nat) else (b % 256 : Nat) - 256

/-- `ApplePS2Elan::processPacketMotionV4`.  `weightValue` is
`ETP_WEIGHT_VALUE` from the protocol header (not under `src/`); its value is
irrelevant to the claims, so it is a parameter. -/
def processPacketMotionV4 (weightValue : Int) (packet : Nat → Nat) (s : V4State) :
    V4State × List (List (Nat × Coord × Coord)) :=
  let s := { s with leftButton := packet 0 &&& 0x1, rightButton := packet 0 &&& 0x2 }
  let id : Int := (((packet 0 &&& 0xe0) >>> 5 : Nat) : Int) - 1
  if id < 0 then (s, [])
  else
    let sid : Int := (((packet 3 &&& 0xe0) >>> 5 : Nat) : Int) - 1
    let weight : Int := if packet 0 &&& 0x10 ≠ 0 then weightValue else 1
    let dx1 := signedChar (packet 1)
    let dy1 := signedChar (packet 2)
    let dx2 := signedChar (packet 4)
    let dy2 := signedChar (packet 5)
    let i := id.toNat
    let fi := s.fingers i
    let fi := { fi with button := packet 0 &&& 0x3, prev := fi.now,
                        now := ⟨fi.now.x + dx1 * weight, fi.now.y - dy1 * weight⟩ }
    let s := { s with fingers := setFinger s.fingers i fi }
    let s := if sid ≥ 0 then
        let j := sid.toNat
        let fj := s.fingers j
        let fj := { fj with button := packet 0 &&& 0x3, prev := fj.now,
                            now := ⟨fj.now.x + dx2 * weight, fj.now.y - dy2 * weight⟩ }
        { s with fingers := setFinger s.fingers j fj }
      else s
    (s, [buildFrame s.fingers])

/-- Process a list of Head packets in order, concatenating the pushed
frames. -/
def runHeadsV4 (fw : Nat) (yMax : Int) :
    V4State → List (Nat → Nat) → V4State × List (List (Nat × Coord × Coord))
  | s, [] => (s, [])
  | s, p :: ps =>
    ((runHeadsV4 fw yMax (processPacketHeadV4 fw yMax p s).1 ps).1,
     (processPacketHeadV4 fw yMax p s).2 ++
       (runHeadsV4 fw yMax (processPacketHeadV4 fw yMax p s).1 ps).2)

/-- The finger ids reported by a 5-bit status mask, in slot order. -/
def maskIds (m : Nat) : List Nat :=
  (List.range ETP_MAX_FINGERS).filter fun i => m.testBit i

/-- All-clear initial V4 tracker state. -/
def initV4 : V4State :=
  { fingers := fun _ => blankFinger, heldFingers := 0, headPacketsCount := 0,
    leftButton := 0, rightButton := 0 }

/-! ## Frame emitter (quiet-period gate) -/

/-- `uint64_t` subtraction, wrapping modulo `2^64`. -/
def sub64 (a b : Nat) : Nat := (a % 2 ^ 64 + (2 ^ 64 - b % 2 ^ 64)) % 2 ^ 64

/-- `ApplePS2Elan::sendTouchData`, reduced to what decides emission:
`if (timestamp - keytime < maxaftertyping) return;` in `uint64_t` arithmetic,
then the frame is assembled from the `touch = true` slots of the state as it
is at that moment (`buildFrame`). -/
def sendTouchData (timestamp keytime maxaftertyping : Nat)
    (f : Nat → FingerState) : Option (List (Nat × Coord × Coord)) :=
  if sub64 timestamp keytime < maxaftertyping then none
  else some (buildFrame f)

/-! ## V1 report handler -/

/-- The tracker state read and written by `elantechReportAbsoluteV1`. -/
structure V1State where
  fingers : Nat → FingerState
  lastFingers : Nat
  singleFingerReports : Nat
  leftButton : Nat
  rightButton : Nat

/-- Modelled from the spec: `cos30deg` is a floating constant defined in a
header that is not under `src/`; the spec fixes the triangular offset to
`dx = cos(30°)·100`, which the source's `(int)` cast truncates to 86. -/
def v1SynthDX : Int := 86

/-- Modelled from the spec: `sin30deg` as above; `dy = sin(30°)·100 = 50`. -/
def v1SynthDY : Int := 50

/-- Finger-count field of a V1 packet (placement depends on the firmware
being pre/post `0x020000`). -/
def v1Fingers (fw : Nat) (packet : Nat → Nat) : Nat :=
  if fw < 0x020000 then ((packet 1 &&& 0x80) >>> 7) + ((packet 1 &&& 0x30) >>> 4)
  else (packet 0 &&& 0xc0) >>> 6

/-- V1 x coordinate: `((packet[1] & 0x0c) << 6) | packet[2]`. -/
def v1X (packet : Nat → Nat) : Int := (((packet 1 &&& 0x0c) <<< 6) ||| packet 2 : Nat)

/-- V1 y coordinate: `info.y_max - (((packet[1] & 0x03) << 8) | packet[3])`. -/
def v1Y (yMax : Int) (packet : Nat → Nat) : Int :=
  yMax - ((((packet 1 &&& 0x03) <<< 8) ||| packet 3 : Nat) : Int)

/-- One updated slot of the V1 handler: touch on, buttons, two-sample
history (`prev := now` before `now := c`, re-seeded when the finger count
just changed). -/
def v1Slot (btn : Nat) (seed : Bool) (c : Coord) (fi : FingerState) : FingerState :=
  let fi := { fi with touch := true, button := btn, prev := fi.now, now := c }
  if seed then { fi with prev := fi.now } else fi

/-- The `fingers == 1` body of `elantechReportAbsoluteV1`. -/
def v1Case1 (btn lastFingers : Nat) (x y : Int) (f : Nat → FingerState) :
    Nat → FingerState :=
  setFinger f 0 (v1Slot btn (lastFingers ≠ 1) ⟨x, y⟩ (f 0))

/-- The `fingers == 2` body of `elantechReportAbsoluteV1` (triangular
synthesis, slots 0 and 1). -/
def v1Case2 (btn lastFingers : Nat) (x y : Int) (f : Nat → FingerState) :
    Nat → FingerState :=
  setFinger (setFinger f 0 (v1Slot btn (lastFingers ≠ 2) ⟨x, y - 100⟩ (f 0)))
    1 (v1Slot btn (lastFingers ≠ 2) ⟨x + v1SynthDX, y + v1SynthDY⟩ (f 1))

/-- The `fingers == 3` body of `elantechReportAbsoluteV1` (triangular
synthesis, slots 0, 1 and 2). -/
def v1Case3 (btn lastFingers : Nat) (x y : Int) (f : Nat → FingerState) :
    Nat → FingerState :=
  setFinger (setFinger (setFinger f 0 (v1Slot btn (lastFingers ≠ 3) ⟨x, y - 100⟩ (f 0)))
      1 (v1Slot btn (lastFingers ≠ 3) ⟨x - v1SynthDX, y + v1SynthDY⟩ (f 1)))
    2 (v1Slot btn (lastFingers ≠ 3) ⟨x + v1SynthDX, y + v1SynthDY⟩ (f 2))

/-- `ApplePS2Elan::elantechReportAbsoluteV1`.  Returns the new state and
whether `sendTouchData()` was reached (`false` when the packet is discarded
by the `jumpy_cursor` workaround). -/
def elantechReportAbsoluteV1 (fw : Nat) (jumpy : Bool) (yMax : Int)
    (packet : Nat → Nat) (s : V1State) : V1State × Bool :=
  let fingers := v1Fingers fw packet
  if jumpy ∧ fingers = 1 ∧ s.singleFingerReports < 2 then
    -- discard first 2 reports of one finger, bogus
    ({ s with singleFingerReports := s.singleFingerReports + 1 }, false)
  else
    let sfr := if jumpy ∧ fingers ≠ 1 then 0 else s.singleFingerReports
    let x := v1X packet
    let y := v1Y yMax packet
    let btn := packet 0 &&& 0x03
    let f := fun i => if i < 3 then { s.fingers i with touch := false } else s.fingers i
    let f :=
      if fingers = 1 then v1Case1 btn s.lastFingers x y f
      else if fingers = 2 then v1Case2 btn s.lastFingers x y f
      else if fingers = 3 then v1Case3 btn s.lastFingers x y f
      else f
    ({ fingers := f, lastFingers := fingers, singleFingerReports := sfr,
       leftButton := packet 0 &&& 0x01, rightButton := packet 0 &&& 0x02 }, true)

/-- All-clear initial V1 tracker state. -/
def initV1 : V1State :=
  { fingers := fun _ => blankFinger, lastFingers := 0, singleFingerReports := 0,
    leftButton := 0, rightButton := 0 }

/-! ### C10: V4 Motion packet with zero primary finger id -/

/-- C10.  For every V4 Motion packet whose primary finger-id field (bits 5–7
of byte 0) is zero, the motion handler returns without modifying any virtual
finger slot (no touch flag, position, prev, pressure, or width changes) and
without emitting a frame; only the left/right button state read from byte 0
is updated before the drop. -/
theorem v4_motion_zero_id_drops (w : Int) (packet : Nat → Nat) (s : V4State)
    (h : (packet 0 &&& 0xe0) >>> 5 = 0) :
    processPacketMotionV4 w packet s =
      ({ s with leftButton := packet 0 &&& 0x1, rightButton := packet 0 &&& 0x2 }, []) := by
  simp [processPacketMotionV4, h]

/-- Witness for `v4_motion_zero_id_drops` on the all-zero packet. -/
theorem v4_motion_zero_id_drops_witness :
    ((0 : Nat) &&& 0xe0) >>> 5 = 0 ∧
    processPacketMotionV4 5 (fun _ => 0) initV4 =
      ({ initV4 with leftButton := 0 &&& 0x1, rightButton := 0 &&& 0x2 }, []) :=
  ⟨by decide, v4_motion_zero_id_drops 5 (fun _ => 0) initV4 (by decide)⟩

/-! ### C7: quiet-period (debounce) suppression -/

/-- `uint64_t` subtraction agrees with `Nat` subtraction when no wrap
occurs. -/
theorem sub64_of_le (a b : Nat) (ha : a < 2 ^ 64) (hb : b < 2 ^ 64) (hle : b ≤ a) :
    sub64 a b = a - b := by
  have h64 : (2 : Nat) ^ 64 = 18446744073709551616 := by norm_num
  simp only [sub64, h64] at *
  omega

/-- C7.  Whenever frame emission is attempted with current timestamp minus
the last keyboard/trackpoint timestamp strictly less than the configured
quiet period, no frame is emitted regardless of finger state; once the quiet
period has elapsed, emission produces a frame reflecting the current (not
stale) finger state. -/
theorem debounce_suppression (timestamp keytime maxaftertyping : Nat)
    (f : Nat → FingerState) (hts : timestamp < 2 ^ 64) (hkt : keytime < 2 ^ 64)
    (hle : keytime ≤ timestamp) :
    (timestamp - keytime < maxaftertyping →
      sendTouchData timestamp keytime maxaftertyping f = none) ∧
    (maxaftertyping ≤ timestamp - keytime →
      sendTouchData timestamp keytime maxaftertyping f = some (buildFrame f)) := by
  have hs := sub64_of_le timestamp keytime hts hkt hle
  constructor
  · intro h
    simp [sendTouchData, hs, h]
  · intro h
    simp [sendTouchData, hs, Nat.not_lt.mpr h]

/-- Witness for `debounce_suppression`: suppression inside the quiet window,
emission after it. -/
theorem debounce_suppression_witness :
    sendTouchData 100 10 200 (fun _ => blankFinger) = none ∧
    sendTouchData 1000 10 200 (fun _ => blankFinger) =
      some (buildFrame fun _ => blankFinger) :=
  ⟨(debounce_suppression 100 10 200 (fun _ => blankFinger)
      (by norm_num) (by norm_num) (by norm_num)).1 (by norm_num),
   (debounce_suppression 1000 10 200 (fun _ => blankFinger)
      (by norm_num) (by norm_num) (by norm_num)).2 (by norm_num)⟩

/-! ### C6: V1 triangular synthesis determinism -/

/-- C6.  For a V1 packet decoding to a real coordinate `(x, y)` with
`fingers = 3`, the three virtual finger slots are placed at `(x, y - 100)`,
`(x - dx, y + dy)` and `(x + dx, y + dy)`, where `dx = cos(30°)·100` and
`dy = sin(30°)·100` (truncated to int), and these placed positions do not
depend on any prior tracker state (the right-hand sides mention only the
packet and the device geometry, never `s`). -/
theorem v1_triangular_synthesis (fw : Nat) (jumpy : Bool) (yMax : Int)
    (packet : Nat → Nat) (s : V1State) (h3 : v1Fingers fw packet = 3) :
    ((elantechReportAbsoluteV1 fw jumpy yMax packet s).1.fingers 0).now =
      ⟨v1X packet, v1Y yMax packet - 100⟩ ∧
    ((elantechReportAbsoluteV1 fw jumpy yMax packet s).1.fingers 1).now =
      ⟨v1X packet - v1SynthDX, v1Y yMax packet + v1SynthDY⟩ ∧
    ((elantechReportAbsoluteV1 fw jumpy yMax packet s).1.fingers 2).now =
      ⟨v1X packet + v1SynthDX, v1Y yMax packet + v1SynthDY⟩ := by
  by_cases hl : s.lastFingers = 3 <;>
    simp [elantechReportAbsoluteV1, h3, v1Case3, v1Slot, setFinger, hl]

/-- Witness for `v1_triangular_synthesis` on a concrete 3-finger packet. -/
theorem v1_triangular_synthesis_witness :
    v1Fingers 0x020030 (fun k => if k = 0 then 0xc0 else 0) = 3 ∧
    ((elantechReportAbsoluteV1 0x020030 false 500 (fun k => if k = 0 then 0xc0 else 0)
        initV1).1.fingers 0).now =
      ⟨v1X (fun k => if k = 0 then 0xc0 else 0),
       v1Y 500 (fun k => if k = 0 then 0xc0 else 0) - 100⟩ :=
  ⟨by decide,
   (v1_triangular_synthesis 0x020030 false 500 (fun k => if k = 0 then 0xc0 else 0)
      initV1 (by decide)).1⟩

/-! ### C1: V4 Status/Head sequencing -/

/-- The contact ids of a frame are exactly the touching slots, in slot
order. -/
theorem buildFrame_map_fst (f : Nat → FingerState) :
    (buildFrame f).map Prod.fst = (List.range ETP_MAX_FINGERS).filter fun i => (f i).touch := by
  have h : ∀ l : List Nat,
      (l.filterMap fun i =>
        if (f i).touch then some (i, (f i).now, (f i).prev) else none).map Prod.fst =
        l.filter fun i => (f i).touch := by
    intro l
    induction l with
    | nil => simp
    | cons a l ih => by_cases h : (f a).touch <;> simp [h, ih]
  simpa [buildFrame] using h (List.range ETP_MAX_FINGERS)

/-- When the touch flags mirror a status mask, the frame's contact ids are
the mask's reported finger ids. -/
theorem buildFrame_ids_of_inv (f : Nat → FingerState) (m : Nat)
    (hinv : ∀ i < ETP_MAX_FINGERS, (f i).touch = m.testBit i) :
    (buildFrame f).map Prod.fst = maskIds m := by
  rw [buildFrame_map_fst, maskIds]
  exact List.filter_congr fun i hi => hinv i (by simpa using hi)

/-- A nonzero 5-bit mask reports at least one finger id. -/
theorem maskIds_pos (m : Nat) (hm : m < 32) (h0 : m ≠ 0) : 0 < (maskIds m).length := by
  have h : ∀ m < 32, m ≠ 0 → 0 < (maskIds m).length := by decide
  exact h m hm h0

/-- `processPacketStatusV4` on a standard (non-ETD0180) V4 device: the touch
flags mirror the 5-bit mask, the head-packet countdown is armed
(`heldFingers = N`, `headPacketsCount = 0`), and a frame is pushed exactly
when the mask is empty — and then it carries zero contacts. -/
theorem statusV4_spec (fw : Nat) (packet : Nat → Nat) (s : V4State)
    (hfw : isETD0180 fw = false) :
    (processPacketStatusV4 fw packet s).1.heldFingers =
      (maskIds (packet 1 &&& 0x1f)).length ∧
    (processPacketStatusV4 fw packet s).1.headPacketsCount = 0 ∧
    (∀ i < ETP_MAX_FINGERS,
      ((processPacketStatusV4 fw packet s).1.fingers i).touch =
        (packet 1 &&& 0x1f).testBit i) ∧
    (packet 1 &&& 0x1f = 0 → (processPacketStatusV4 fw packet s).2 = [[]]) ∧
    (packet 1 &&& 0x1f ≠ 0 → (processPacketStatusV4 fw packet s).2 = []) := by
  have hm : packet 1 &&& 0x1f < 32 :=
    lt_of_le_of_lt Nat.and_le_right (by norm_num)
  have hcount : (List.range ETP_MAX_FINGERS).countP
      (fun i => (packet 1 &&& 0x1f).testBit i) = (maskIds (packet 1 &&& 0x1f)).length := by
    rw [maskIds, List.countP_eq_length_filter]
  have hetd : ¬(isETD0180 fw = true ∧ packet 1 &&& 0x1f = 0) := by
    rw [hfw]
    rintro ⟨h, -⟩
    exact Bool.false_ne_true h
  have htouch : ∀ i < ETP_MAX_FINGERS,
      ((fun i => if i < ETP_MAX_FINGERS then
          { s.fingers i with touch := (packet 1 &&& 0x1f).testBit i }
          else s.fingers i) i).touch = (packet 1 &&& 0x1f).testBit i := by
    intro i hi
    simp only [if_pos hi]
  by_cases h0 : packet 1 &&& 0x1f = 0
  · have hmask0 : maskIds (packet 1 &&& 0x1f) = [] := by rw [h0]; decide
    have hzero : (List.range ETP_MAX_FINGERS).countP
        (fun i => (packet 1 &&& 0x1f).testBit i) = 0 := by
      rw [hcount, hmask0]
      rfl
    have hframe : buildFrame (fun i => if i < ETP_MAX_FINGERS then
        { s.fingers i with touch := (packet 1 &&& 0x1f).testBit i }
        else s.fingers i) = [] := by
      apply List.map_eq_nil_iff.mp
      rw [buildFrame_ids_of_inv _ (packet 1 &&& 0x1f) htouch, hmask0]
    refine ⟨?_, ?_, ?_, fun _ => ?_, fun hne => absurd h0 hne⟩
    · simp only [processPacketStatusV4, if_neg hetd, if_pos hzero]
      exact hcount
    · simp only [processPacketStatusV4, if_neg hetd, if_pos hzero]
    · simp only [processPacketStatusV4, if_neg hetd, if_pos hzero]
      exact fun i hi => htouch i hi
    · simp only [processPacketStatusV4, if_neg hetd, if_pos hzero]
      rw [hframe]
  · have hpos : 0 < (maskIds (packet 1 &&& 0x1f)).length := maskIds_pos _ hm h0
    have hnz : ¬((List.range ETP_MAX_FINGERS).countP
        (fun i => (packet 1 &&& 0x1f).testBit i) = 0) := by
      rw [hcount]
      omega
    refine ⟨?_, ?_, ?_, fun hz => absurd hz h0, fun _ => ?_⟩
    · simp only [processPacketStatusV4, if_neg hetd, if_neg hnz]
      exact hcount
    · simp only [processPacketStatusV4, if_neg hetd, if_neg hnz]
    · simp only [processPacketStatusV4, if_neg hetd, if_neg hnz]
      exact fun i hi => htouch i hi
    · simp only [processPacketStatusV4, if_neg hetd, if_neg hnz]

/-- One standard-V4 Head packet carrying a finger id reported by the current
mask: `heldFingers` and the touch flags are preserved, and a frame — whose
contact ids are the mask's ids — is pushed exactly when this packet is the
`heldFingers`-th Head packet since the Status packet. -/
theorem headV4_step (fw : Nat) (hfw : isETD0180 fw = false) (yMax : Int)
    (p : Nat → Nat) (s : V4State) (m : Nat) (hm : m < 32)
    (hraw : 1 ≤ (p 3 &&& 0xe0) >>> 5)
    (hbit : m.testBit ((p 3 &&& 0xe0) >>> 5 - 1) = true)
    (hinv : ∀ i < ETP_MAX_FINGERS, (s.fingers i).touch = m.testBit i) :
    (processPacketHeadV4 fw yMax p s).1.heldFingers = s.heldFingers ∧
    (∀ i < ETP_MAX_FINGERS,
      ((processPacketHeadV4 fw yMax p s).1.fingers i).touch = m.testBit i) ∧
    (s.headPacketsCount + 1 = s.heldFingers →
      (processPacketHeadV4 fw yMax p s).1.headPacketsCount = 0 ∧
      (processPacketHeadV4 fw yMax p s).2.length = 1 ∧
      ∀ fr ∈ (processPacketHeadV4 fw yMax p s).2, fr.map Prod.fst = maskIds m) ∧
    (s.headPacketsCount + 1 ≠ s.heldFingers →
      (processPacketHeadV4 fw yMax p s).1.headPacketsCount = s.headPacketsCount + 1 ∧
      (processPacketHeadV4 fw yMax p s).2 = []) := by
  have hi5 : (p 3 &&& 0xe0) >>> 5 - 1 < ETP_MAX_FINGERS := by
    by_contra hcon
    push_neg at hcon
    have h5le : 5 ≤ (p 3 &&& 0xe0) >>> 5 - 1 := by
      simpa [ETP_MAX_FINGERS] using hcon
    have h32 : (32 : Nat) ≤ 2 ^ ((p 3 &&& 0xe0) >>> 5 - 1) :=
      calc (32 : Nat) = 2 ^ 5 := by norm_num
        _ ≤ 2 ^ ((p 3 &&& 0xe0) >>> 5 - 1) := Nat.pow_le_pow_right (by norm_num) h5le
    rw [Nat.testBit_lt_two_pow (lt_of_lt_of_le hm h32)] at hbit
    exact Bool.false_ne_true hbit
  have hguard : ¬((((p 3 &&& 0xe0) >>> 5 : Nat) : Int) - 1 < 0 ∨
      (((p 3 &&& 0xe0) >>> 5 : Nat) : Int) - 1 ≥ (ETP_MAX_FINGERS : Int)) := by
    simp only [ETP_MAX_FINGERS] at hi5 ⊢
    omega
  have htn : ((((p 3 &&& 0xe0) >>> 5 : Nat) : Int) - 1).toNat = (p 3 &&& 0xe0) >>> 5 - 1 := by
    omega
  have hinv' : ∀ i < ETP_MAX_FINGERS,
      ((setFinger s.fingers ((p 3 &&& 0xe0) >>> 5 - 1)
        { s.fingers ((p 3 &&& 0xe0) >>> 5 - 1) with
            button := p 0 &&& 0x3,
            prev := (s.fingers ((p 3 &&& 0xe0) >>> 5 - 1)).now,
            pressure := (p 1 &&& 0xf0) ||| ((p 4 &&& 0xf0) >>> 4),
            width := (p 0 &&& 0xf0) >>> 4, touch := true,
            now := ⟨((((p 1 &&& 0x0f) <<< 8) ||| p 2 : Nat) : Int),
              yMax - ((((p 4 &&& 0x0f) <<< 8) ||| p 5 : Nat) : Int)⟩ }) i).touch =
        m.testBit i := by
    intro i hi
    by_cases hieq : i = (p 3 &&& 0xe0) >>> 5 - 1
    · subst hieq
      simp [setFinger, hbit]
    · simp [setFinger, hieq, hinv i hi]
  have hetd : ¬(isETD0180 fw = true) := by
    rw [hfw]
    exact Bool.false_ne_true
  by_cases hemit : s.headPacketsCount + 1 = s.heldFingers
  · refine ⟨?_, ?_, fun _ => ⟨?_, ?_, ?_⟩, fun hne => absurd hemit hne⟩
    · simp only [processPacketHeadV4, if_neg hetd, if_neg hguard, htn, if_pos hemit]
    · simp only [processPacketHeadV4, if_neg hetd, if_neg hguard, htn, if_pos hemit]
      exact fun i hi => hinv' i hi
    · simp only [processPacketHeadV4, if_neg hetd, if_neg hguard, htn, if_pos hemit]
    · simp only [processPacketHeadV4, if_neg hetd, if_neg hguard, htn, if_pos hemit]
      rfl
    · simp only [processPacketHeadV4, if_neg hetd, if_neg hguard, htn, if_pos hemit]
      intro fr hfr
      rw [List.mem_singleton.mp hfr]
      exact buildFrame_ids_of_inv _ m fun i hi => hinv' i hi
  · refine ⟨?_, ?_, fun he => absurd he hemit, fun _ => ⟨?_, ?_⟩⟩
    · simp only [processPacketHeadV4, if_neg hetd, if_neg hguard, htn, if_neg hemit]
    · simp only [processPacketHeadV4, if_neg hetd, if_neg hguard, htn, if_neg hemit]
      exact fun i hi => hinv' i hi
    · simp only [processPacketHeadV4, if_neg hetd, if_neg hguard, htn, if_neg hemit]
    · simp only [processPacketHeadV4, if_neg hetd, if_neg hguard, htn, if_neg hemit]

/-- Folding standard-V4 Head packets with reported finger ids over a tracker
state armed by a Status packet: exactly one frame appears, at the moment the
running Head count reaches `heldFingers`, and its contact ids are the mask's
reported ids. -/
theorem runHeadsV4_spec (fw : Nat) (hfw : isETD0180 fw = false) (yMax : Int)
    (m : Nat) (hm : m < 32) :
    ∀ (hs : List (Nat → Nat)) (s : V4State),
      (∀ p ∈ hs, 1 ≤ (p 3 &&& 0xe0) >>> 5 ∧
        m.testBit ((p 3 &&& 0xe0) >>> 5 - 1) = true) →
      s.heldFingers = (maskIds m).length →
      (∀ i < ETP_MAX_FINGERS, (s.fingers i).touch = m.testBit i) →
      s.headPacketsCount + hs.length ≤ (maskIds m).length →
      (runHeadsV4 fw yMax s hs).2.length =
        (if s.headPacketsCount + hs.length = (maskIds m).length ∧ 0 < hs.length
         then 1 else 0) ∧
      ∀ fr ∈ (runHeadsV4 fw yMax s hs).2, fr.map Prod.fst = maskIds m := by
  intro hs
  induction hs with
  | nil =>
    intro s hids hheld hinv hlen
    simp [runHeadsV4]
  | cons p ps ih =>
    intro s hids hheld hinv hlen
    obtain ⟨hraw, hbit⟩ := hids p (List.mem_cons_self p ps)
    have hstep := headV4_step fw hfw yMax p s m hm hraw hbit hinv
    by_cases hemit : s.headPacketsCount + 1 = s.heldFingers
    · obtain ⟨hc0, hl1, hfr⟩ := hstep.2.2.1 hemit
      have hps : ps = [] := by
        have : s.headPacketsCount + (p :: ps).length ≤ (maskIds m).length := hlen
        simp only [List.length_cons] at this
        rw [hheld] at hemit
        have : ps.length = 0 := by omega
        exact List.length_eq_zero.mp this
      subst hps
      constructor
      · simp only [runHeadsV4, List.append_nil, List.length_cons, List.length_nil]
        rw [hl1]
        rw [hheld] at hemit
        simp [hemit.symm]
      · intro fr hfr2
        simp only [runHeadsV4, List.append_nil] at hfr2
        exact hfr fr hfr2
    · obtain ⟨hc1, hnil⟩ := hstep.2.2.2 hemit
      have ihr := ih (processPacketHeadV4 fw yMax p s).1
        (fun q hq => hids q (List.mem_cons_of_mem p hq))
        (hstep.1.trans hheld) hstep.2.1
        (by rw [hc1]; simp only [List.length_cons] at hlen; omega)
      constructor
      · simp only [runHeadsV4, hnil, List.nil_append, List.length_cons]
        rw [ihr.1, hc1]
        rw [hheld] at hemit
        split <;> split <;> omega
      · intro fr hfr2
        simp only [runHeadsV4, hnil, List.nil_append] at hfr2
        exact ihr.2 fr hfr2

/-- C1 (amended).  For every V4 device other than the ETD0180 special case
(firmware 0x381f17): after a Status packet whose 5-bit finger-presence mask
reports N > 0 fingers, the tracker emits no frame until exactly N subsequent
Head packets (one per reported finger id) have been processed, and then
emits exactly one frame containing all N contacts; a Status packet reporting
zero fingers emits a frame immediately with zero contacts. -/
theorem v4_status_head_sequencing (fw : Nat) (hfw : fw ≠ 0x381f17) (yMax : Int)
    (packet : Nat → Nat) (s : V4State) (hs : List (Nat → Nat))
    (hids : ∀ p ∈ hs, 1 ≤ (p 3 &&& 0xe0) >>> 5 ∧
      (packet 1 &&& 0x1f).testBit ((p 3 &&& 0xe0) >>> 5 - 1) = true)
    (hlen : hs.length ≤ (maskIds (packet 1 &&& 0x1f)).length) :
    (packet 1 &&& 0x1f = 0 → (processPacketStatusV4 fw packet s).2 = [[]]) ∧
    (packet 1 &&& 0x1f ≠ 0 →
      (processPacketStatusV4 fw packet s).2 = [] ∧
      (hs.length < (maskIds (packet 1 &&& 0x1f)).length →
        (runHeadsV4 fw yMax (processPacketStatusV4 fw packet s).1 hs).2 = []) ∧
      (hs.length = (maskIds (packet 1 &&& 0x1f)).length →
        (runHeadsV4 fw yMax (processPacketStatusV4 fw packet s).1 hs).2.length = 1 ∧
        ∀ fr ∈ (runHeadsV4 fw yMax (processPacketStatusV4 fw packet s).1 hs).2,
          fr.map Prod.fst = maskIds (packet 1 &&& 0x1f) ∧
          fr.length = (maskIds (packet 1 &&& 0x1f)).length)) := by
  have hfwb : isETD0180 fw = false := by simp [isETD0180, hfw]
  have hm : packet 1 &&& 0x1f < 32 := lt_of_le_of_lt Nat.and_le_right (by norm_num)
  obtain ⟨hheld, hcnt, hinv, hz, hnzs⟩ := statusV4_spec fw packet s hfwb
  have hrun := runHeadsV4_spec fw hfwb yMax (packet 1 &&& 0x1f) hm hs
    (processPacketStatusV4 fw packet s).1 hids hheld hinv (by rw [hcnt]; omega)
  refine ⟨hz, fun h0 => ⟨hnzs h0, ?_, ?_⟩⟩
  · intro hlt
    apply List.length_eq_zero.mp
    rw [hrun.1, hcnt]
    rw [if_neg]
    rintro ⟨heq, -⟩
    omega
  · intro heq
    have hpos := maskIds_pos _ hm h0
    refine ⟨?_, fun fr hfr => ⟨hrun.2 fr hfr, ?_⟩⟩
    · rw [hrun.1, hcnt]
      rw [if_pos ⟨by omega, by omega⟩]
    · have hmap := congrArg List.length (hrun.2 fr hfr)
      simpa using hmap

/-- Concrete V4 Status packet reporting the 5-bit mask 0b101 (fingers 0 and
2). -/
def v4StatusPacket5 : Nat → Nat := fun k => if k = 1 then 5 else 0

/-- Concrete V4 Head packet carrying finger id 0 (`packet[3] = 0x21`). -/
def v4HeadPacketId0 : Nat → Nat := fun k => if k = 3 then 0x21 else 0

/-- Concrete V4 Head packet carrying finger id 2 (`packet[3] = 0x61`). -/
def v4HeadPacketId2 : Nat → Nat := fun k => if k = 3 then 0x61 else 0

/-- Witness for `v4_status_head_sequencing`: a standard-V4 firmware, Status
mask 0b101, and the two matching Head packets produce exactly one frame. -/
theorem v4_status_head_sequencing_witness :
    (0x060000 : Nat) ≠ 0x381f17 ∧
    (runHeadsV4 0x060000 3000
      (processPacketStatusV4 0x060000 v4StatusPacket5 initV4).1
      [v4HeadPacketId0, v4HeadPacketId2]).2.length = 1 := by
  have hids : ∀ p ∈ [v4HeadPacketId0, v4HeadPacketId2],
      1 ≤ (p 3 &&& 0xe0) >>> 5 ∧
      (v4StatusPacket5 1 &&& 0x1f).testBit ((p 3 &&& 0xe0) >>> 5 - 1) = true := by
    intro p hp
    rcases List.mem_cons.mp hp with h1 | hp2
    · subst h1
      exact ⟨by decide, by decide⟩
    · rw [List.mem_singleton.mp hp2]
      exact ⟨by decide, by decide⟩
  refine ⟨by decide, ?_⟩
  exact (((v4_status_head_sequencing 0x060000 (by decide) 3000 v4StatusPacket5 initV4
    [v4HeadPacketId0, v4HeadPacketId2] hids (by decide)).2 (by decide)).2.2
    (by decide)).1

/-- C1 counterexample: ETD0180 (firmware `0x381f17`) is itself a V4 device
(IC body 8 derives hw_version 4), yet after a Status packet reporting two
fingers (mask 0b101) a single Head packet already pushes a frame — the
tracker does not wait for the second Head packet, contradicting the claim as
stated for every V4 device. -/
theorem v4_status_head_sequencing_counterexample :
    elantechSetProperties 0x381f17 = some 4 ∧
    (processPacketStatusV4 0x381f17 v4StatusPacket5 initV4).1.heldFingers = 2 ∧
    (processPacketStatusV4 0x381f17 v4StatusPacket5 initV4).2 = [] ∧
    (processPacketHeadV4 0x381f17 3000 v4HeadPacketId0
      (processPacketStatusV4 0x381f17 v4StatusPacket5 initV4).1).2.length = 1 :=
  ⟨by decide, by decide, by decide, by decide⟩

end Elan
